import Mathlib

/-!
Verification of the MCP manager/registry/executor core of the `vimcoplit`
repository (package `internal/core/mcp`), as a shallow embedding in Lean.

Modelling conventions:
* Go `interface \x7b\x7d` runtime values (and decoded JSON values) are the
  inductive `GoVal`; Go numbers are modelled as integers (`vnum`), floating
  point widths being irrelevant to every property below.
* Go maps (`map[string]T`) are association lists `List (String × T)` with
  first-match lookup; Go map writes replace the existing binding.
* Go `error` results are `Except String` / `Option String`; the sentinel
  `context.DeadlineExceeded` is the dedicated `GoErr.deadlineExceeded`
  constructor, since the source compares errors with `==` (identity).
* `time.Time` / `time.Duration` values are opaque integer instants /
  nanosecond counts.
* External effects (the filesystem write in `saveConfig`, the HTTP round
  trip in `HTTPExecutor.Execute` and the health probe of
  `RemoteServerRunner`) are inputs to the embedded functions describing the
  outcome the environment produced.
-/

namespace Mcp

/-- A Go runtime value as seen through `interface \x7b\x7d` (also the shape of a
decoded JSON document): string, number, boolean, array, object or nil. -/
inductive GoVal where
  | vstr (s : String)
  | vnum (n : Int)
  | vbool (b : Bool)
  | varr (elems : List GoVal)
  | vobj (fields : List (String × GoVal))
  | vnull
deriving Inhabited

/-- First-match lookup in an association list, the Go two-result map read
`v, ok := m[k]`. -/
def lookupKey {α : Type} : List (String × α) → String → Option α
  | [], _ => none
  | (k', v) :: rest, k => if k' = k then some v else lookupKey rest k

/-- Go map write `m[k] = v`: replace the binding when the key is present,
append it otherwise. -/
def insertKey {α : Type} : List (String × α) → String → α → List (String × α)
  | [], k, v => [(k, v)]
  | (k', v') :: rest, k, v =>
      if k' = k then (k, v) :: rest else (k', v') :: insertKey rest k v

/-- Go map delete `delete(m, k)`. -/
def eraseKey {α : Type} (xs : List (String × α)) (k : String) : List (String × α) :=
  xs.filter (fun kv => kv.1 != k)

/-- The values of a Go map, as `ListServers` / `ListTools` enumerate them. -/
def listValues {α : Type} (xs : List (String × α)) : List α :=
  xs.map (fun kv => kv.2)

/-- Go map read in one-result form `m[k]`, yielding the zero value (here `""`)
for an absent key; used for the `Metadata` maps. -/
def metaLookup (md : List (String × String)) (k : String) : String :=
  (lookupKey md k).getD ""

/-! ### Entity records (`part_002`, the `mcp` package's type file) -/

/-- `ToolParameter`: one declared parameter of a tool. `Type'` stands for the
Go field `Type` (a Lean keyword). -/
structure ToolParameter where
  Name : String := ""
  Type' : String := ""
  Description : String := ""
  Required : Bool := false
  Default : Option GoVal := none
deriving Inhabited

/-- `Tool`: a registered MCP tool. Timestamps are opaque instants. -/
structure Tool where
  ID : String := ""
  Name : String := ""
  Description : String := ""
  Version : String := ""
  Author : String := ""
  Parameters : List ToolParameter := []
  ServerID : String := ""
  CreatedAt : Int := 0
  UpdatedAt : Int := 0
  Metadata : List (String × String) := []
deriving Inhabited

/-- `ServerType` is a Go string type with constants `local` / `remote`. -/
def ServerTypeLocal : String := "local"

/-- The `remote` server type constant. -/
def ServerTypeRemote : String := "remote"

/-- `ServerStatus` constant `running`. -/
def ServerStatusRunning : String := "running"

/-- `ServerStatus` constant `stopped`. -/
def ServerStatusStopped : String := "stopped"

/-- `ServerStatus` constant `error`. -/
def ServerStatusError : String := "error"

/-- `Server`: a registered MCP server. `Type'` / `Status` carry the Go string
types `ServerType` / `ServerStatus`. -/
structure Server where
  ID : String := ""
  Name : String := ""
  Description : String := ""
  Version : String := ""
  URL : String := ""
  Type' : String := ""
  Status : String := ""
  Tools : List Tool := []
  CreatedAt : Int := 0
  UpdatedAt : Int := 0
  Metadata : List (String × String) := []
deriving Inhabited

/-- `ToolExecutionStatus` constant `success`. -/
def ToolExecutionStatusSuccess : String := "success"

/-- `ToolExecutionStatus` constant `error`. -/
def ToolExecutionStatusError : String := "error"

/-- `ToolExecutionStatus` constant `timeout`. -/
def ToolExecutionStatusTimeout : String := "timeout"

/-- `ToolExecutionResult`: an executor's result. `Result = none` models the
nil `interface \x7b\x7d` payload. -/
structure ToolExecutionResult where
  Status : String := ""
  Result : Option GoVal := none
  Error : String := ""
  StartTime : Int := 0
  EndTime : Int := 0
deriving Inhabited

/-- `ToolResult`: the public result shape `ExecuteTool` returns. -/
structure ToolResult where
  ToolID : String := ""
  Status : String := ""
  Result : Option GoVal := none
  Error : String := ""
  StartTime : Int := 0
  EndTime : Int := 0
deriving Inhabited

/-! ### Parameter validation (`Tool.ValidateParameters`, `part_002`) -/

/-- The human-readable Go type of a runtime value, standing in for the `%T`
verb of the mismatch messages. -/
def goTypeName : GoVal → String
  | .vstr _ => "string"
  | .vnum _ => "number"
  | .vbool _ => "bool"
  | .varr _ => "[]interface"
  | .vobj _ => "map[string]interface"
  | .vnull => "<nil>"

/-- `validateParameterType`: the runtime shape check of one supplied value
against its declared type tag. Any tag outside the five known ones is
rejected as unsupported, exactly as the source's `default` case does. -/
def validateParameterType (paramType : String) (value : GoVal) : Except String Unit :=
  if paramType = "string" then
    match value with
    | .vstr _ => .ok ()
    | v => .error ("expected string, got " ++ goTypeName v)
  else if paramType = "number" then
    match value with
    | .vnum _ => .ok ()
    | v => .error ("expected number, got " ++ goTypeName v)
  else if paramType = "boolean" then
    match value with
    | .vbool _ => .ok ()
    | v => .error ("expected boolean, got " ++ goTypeName v)
  else if paramType = "array" then
    match value with
    | .varr _ => .ok ()
    | v => .error ("expected array, got " ++ goTypeName v)
  else if paramType = "object" then
    match value with
    | .vobj _ => .ok ()
    | v => .error ("expected object, got " ++ goTypeName v)
  else
    .error ("unsupported parameter type: " ++ paramType)

/-- The source's linear scan of `t.Parameters` for the declaration with a
given name (first match wins). -/
def findParam : List ToolParameter → String → Option ToolParameter
  | [], _ => none
  | p :: rest, name => if p.Name = name then some p else findParam rest name

/-- The first loop of `ValidateParameters`: every `Required` declared
parameter must be present in the call's parameter map. -/
def checkRequired (declared : List ToolParameter) (params : List (String × GoVal)) :
    Except String Unit :=
  match declared with
  | [] => .ok ()
  | p :: rest =>
      if p.Required && (lookupKey params p.Name).isNone then
        .error ("missing required parameter: " ++ p.Name)
      else checkRequired rest params

/-- The second loop of `ValidateParameters`: every supplied key must be
declared, and its value must pass the declared tag's shape check. -/
def checkSupplied (declared : List ToolParameter) :
    List (String × GoVal) → Except String Unit
  | [] => .ok ()
  | (name, value) :: rest =>
      match findParam declared name with
      | none => .error ("unknown parameter: " ++ name)
      | some pd =>
          match validateParameterType pd.Type' value with
          | .error e => .error ("invalid type for parameter " ++ name ++ ": " ++ e)
          | .ok () => checkSupplied declared rest

/-- `Tool.ValidateParameters`: required-presence pass over the declarations,
then declaration/shape pass over the supplied entries, first failure wins. -/
def Tool.ValidateParameters (t : Tool) (params : List (String × GoVal)) :
    Except String Unit :=
  match checkRequired t.Parameters params with
  | .error e => .error e
  | .ok () => checkSupplied t.Parameters params

/-! ### Executors (`server.go`, second compilation unit) -/

/-- A Go `error` value: either the `context.DeadlineExceeded` sentinel or any
other error carrying its message. -/
inductive GoErr where
  | deadlineExceeded
  | other (msg : String)
deriving Inhabited

/-- `err.Error()`. -/
def GoErr.message : GoErr → String
  | .deadlineExceeded => "context deadline exceeded"
  | .other m => m

/-- The source's identity comparison `err == context.DeadlineExceeded`. -/
def errIsDeadlineExceeded : GoErr → Bool
  | .deadlineExceeded => true
  | .other _ => false

/-- What one `Execute` call comes back with: the Go pair
`(*ToolExecutionResult, error)` where exactly one side is nil, or a runtime
panic (the source's single-value type assertion can raise one). -/
inductive ExecOutcome where
  | callError (msg : String)
  | result (r : ToolExecutionResult)
  | panicked (msg : String)
deriving Inhabited

/-- A registered local tool handler: the environment's answer to one
invocation `handler(ctx, params)`. -/
def ToolHandler : Type := List (String × GoVal) → Except GoErr GoVal

/-- `LocalExecutor`: in-process dispatch through a handler map. -/
structure LocalExecutor where
  handlers : List (String × ToolHandler)

/-- `NewLocalExecutor`: an executor with an empty handler map. -/
def NewLocalExecutor : LocalExecutor := ⟨[]⟩

/-- `LocalExecutor.RegisterHandler`. -/
def LocalExecutor.RegisterHandler (e : LocalExecutor) (toolID : String)
    (handler : ToolHandler) : LocalExecutor :=
  ⟨insertKey e.handlers toolID handler⟩

/-- `LocalExecutor.Execute`: validate, look the handler up, invoke it, and
classify the outcome (`Timeout` exactly on the deadline sentinel, `Error` on
any other handler error, `Success` otherwise). -/
def LocalExecutor.Execute (e : LocalExecutor) (tool : Tool)
    (params : List (String × GoVal)) (startTime endTime : Int) : ExecOutcome :=
  match tool.ValidateParameters params with
  | .error err => .callError ("parameter validation failed: " ++ err)
  | .ok () =>
      match lookupKey e.handlers tool.ID with
      | none => .callError ("no handler registered for tool " ++ tool.ID)
      | some handler =>
          match handler params with
          | .error err =>
              if errIsDeadlineExceeded err then
                .result { Status := ToolExecutionStatusTimeout, Result := none,
                          Error := "execution timed out",
                          StartTime := startTime, EndTime := endTime }
              else
                .result { Status := ToolExecutionStatusError, Result := none,
                          Error := err.message,
                          StartTime := startTime, EndTime := endTime }
          | .ok value =>
              .result { Status := ToolExecutionStatusSuccess, Result := some value,
                        Error := "", StartTime := startTime, EndTime := endTime }

/-- The environment's answer to the HTTP POST `e.client.Do(req)`: a transport
failure, or a response with a status code and the JSON decode of its body. -/
inductive HTTPOutcome where
  | failure (err : GoErr)
  | response (statusCode : Nat) (body : Except String GoVal)
deriving Inhabited

/-- `HTTPExecutor`: remote dispatch with a client bound to a timeout. -/
structure HTTPExecutor where
  timeout : Int
deriving Inhabited

/-- `NewHTTPExecutor`. -/
def NewHTTPExecutor (timeout : Int) : HTTPExecutor := ⟨timeout⟩

/-- The Go `%v` rendering of a runtime value, as the error-field extraction
prints it (compound values approximated; no property depends on them). -/
def goFormat : GoVal → String
  | .vstr s => s
  | .vnum n => toString n
  | .vbool b => if b then "true" else "false"
  | .varr _ => "[...]"
  | .vobj _ => "map[...]"
  | .vnull => "<nil>"

/-- `HTTPExecutor.Execute`: validate, POST, and classify. A response with
status ≥ 400 whose body is not a JSON object hits the source's single-value
type assertion `responseBody.(map[string]interface)` and panics. -/
def HTTPExecutor.Execute (tool : Tool) (params : List (String × GoVal))
    (outcome : HTTPOutcome) (startTime endTime : Int) : ExecOutcome :=
  match tool.ValidateParameters params with
  | .error err => .callError ("parameter validation failed: " ++ err)
  | .ok () =>
      match outcome with
      | .failure err =>
          if errIsDeadlineExceeded err then
            .result { Status := ToolExecutionStatusTimeout, Result := none,
                      Error := "execution timed out",
                      StartTime := startTime, EndTime := endTime }
          else
            .result { Status := ToolExecutionStatusError, Result := none,
                      Error := "request failed: " ++ err.message,
                      StartTime := startTime, EndTime := endTime }
      | .response statusCode body =>
          match body with
          | .error decodeErr =>
              .result { Status := ToolExecutionStatusError, Result := none,
                        Error := "failed to decode response: " ++ decodeErr,
                        StartTime := startTime, EndTime := endTime }
          | .ok responseBody =>
              if statusCode ≥ 400 then
                match responseBody with
                | .vobj fields =>
                    .result { Status := ToolExecutionStatusError, Result := none,
                              Error :=
                                match lookupKey fields "error" with
                                | some errMsg => goFormat errMsg
                                | none => "server returned status " ++ toString statusCode,
                              StartTime := startTime, EndTime := endTime }
                | _ =>
                    .panicked "interface conversion: interface is not map[string]interface"
              else
                .result { Status := ToolExecutionStatusSuccess,
                          Result := some responseBody, Error := "",
                          StartTime := startTime, EndTime := endTime }

/-- The closed set of executor variants the Manager caches (`ToolExecutor`
interface: the dynamic type is `*LocalExecutor` or `*HTTPExecutor`). -/
inductive ToolExecutor where
  | localExec (e : LocalExecutor)
  | httpExec (e : HTTPExecutor)

/-- Dispatch `Execute` through the interface. The HTTP outcome input only
matters for the HTTP variant; the local variant only reads its handlers. -/
def ToolExecutor.Execute : ToolExecutor → Tool → List (String × GoVal) →
    HTTPOutcome → Int → Int → ExecOutcome
  | .localExec e, tool, params, _, s, en => e.Execute tool params s en
  | .httpExec _, tool, params, outcome, s, en =>
      HTTPExecutor.Execute tool params outcome s en

/-! ### Registry persistence: the JSON image of the registry
(`saveConfig` / `loadConfig` in `manager.go`). Marshalling follows the
records' `json:"..."` tags; timestamps are integer instants. -/

/-- JSON image of a `map[string]string` metadata map. -/
def encodeMetadata (md : List (String × String)) : GoVal :=
  .vobj (md.map (fun kv => (kv.1, .vstr kv.2)))

/-- JSON image of one `ToolParameter` (`default` has `omitempty`). -/
def encodeToolParameter (p : ToolParameter) : GoVal :=
  .vobj ([("name", .vstr p.Name), ("type", .vstr p.Type'),
          ("description", .vstr p.Description), ("required", .vbool p.Required)] ++
         (match p.Default with
          | none => []
          | some d => [("default", d)]))

/-- JSON image of one `Tool`. -/
def encodeTool (t : Tool) : GoVal :=
  .vobj [("id", .vstr t.ID), ("name", .vstr t.Name),
         ("description", .vstr t.Description), ("version", .vstr t.Version),
         ("author", .vstr t.Author),
         ("parameters", .varr (t.Parameters.map encodeToolParameter)),
         ("server_id", .vstr t.ServerID), ("created_at", .vnum t.CreatedAt),
         ("updated_at", .vnum t.UpdatedAt), ("metadata", encodeMetadata t.Metadata)]

/-- JSON image of one `Server`. -/
def encodeServer (s : Server) : GoVal :=
  .vobj [("id", .vstr s.ID), ("name", .vstr s.Name),
         ("description", .vstr s.Description), ("version", .vstr s.Version),
         ("url", .vstr s.URL), ("type", .vstr s.Type'), ("status", .vstr s.Status),
         ("tools", .varr (s.Tools.map encodeTool)),
         ("created_at", .vnum s.CreatedAt), ("updated_at", .vnum s.UpdatedAt),
         ("metadata", encodeMetadata s.Metadata)]

/-- Reading a string-typed struct field back from a JSON object: an absent
field (or JSON null) keeps the zero value, a non-string value is a
decode error. -/
def decodeStr : Option GoVal → Option String
  | none => some ""
  | some (.vstr s) => some s
  | some .vnull => some ""
  | some _ => none

/-- Reading an integer-typed field (`time.Duration`, instants). -/
def decodeInt : Option GoVal → Option Int
  | none => some 0
  | some (.vnum n) => some n
  | some .vnull => some 0
  | some _ => none

/-- Reading a boolean field. -/
def decodeBoolField : Option GoVal → Option Bool
  | none => some false
  | some (.vbool b) => some b
  | some .vnull => some false
  | some _ => none

/-- Elementwise decoding of a JSON array, failing on the first bad element. -/
def decodeList {α : Type} (f : GoVal → Option α) : List GoVal → Option (List α)
  | [] => some []
  | v :: rest =>
      match f v, decodeList f rest with
      | some a, some as => some (a :: as)
      | _, _ => none

/-- Fieldwise decoding of a JSON object into an association list. -/
def decodeObjWith {α : Type} (f : GoVal → Option α) :
    List (String × GoVal) → Option (List (String × α))
  | [] => some []
  | (k, v) :: rest =>
      match f v, decodeObjWith f rest with
      | some a, some as => some ((k, a) :: as)
      | _, _ => none

/-- Reading a `map[string]string` metadata field back. -/
def decodeMetadata : Option GoVal → Option (List (String × String))
  | none => some []
  | some .vnull => some []
  | some (.vobj fields) => decodeObjWith (fun v => decodeStr (some v)) fields
  | some _ => none

/-- Unmarshalling one `ToolParameter` from its JSON object. -/
def decodeToolParameter : GoVal → Option ToolParameter
  | .vobj fields => do
      let name ← decodeStr (lookupKey fields "name")
      let ptype ← decodeStr (lookupKey fields "type")
      let descr ← decodeStr (lookupKey fields "description")
      let req ← decodeBoolField (lookupKey fields "required")
      some { Name := name, Type' := ptype, Description := descr, Required := req,
             Default := lookupKey fields "default" }
  | .vnull => some {}
  | _ => none

/-- Unmarshalling a `parameters` array. -/
def decodeParameters : Option GoVal → Option (List ToolParameter)
  | none => some []
  | some .vnull => some []
  | some (.varr elems) => decodeList decodeToolParameter elems
  | some _ => none

/-- Unmarshalling one `Tool` from its JSON object. -/
def decodeTool : GoVal → Option Tool
  | .vobj fields => do
      let id ← decodeStr (lookupKey fields "id")
      let name ← decodeStr (lookupKey fields "name")
      let descr ← decodeStr (lookupKey fields "description")
      let version ← decodeStr (lookupKey fields "version")
      let author ← decodeStr (lookupKey fields "author")
      let ps ← decodeParameters (lookupKey fields "parameters")
      let serverID ← decodeStr (lookupKey fields "server_id")
      let created ← decodeInt (lookupKey fields "created_at")
      let updated ← decodeInt (lookupKey fields "updated_at")
      let md ← decodeMetadata (lookupKey fields "metadata")
      some { ID := id, Name := name, Description := descr, Version := version,
             Author := author, Parameters := ps, ServerID := serverID,
             CreatedAt := created, UpdatedAt := updated, Metadata := md }
  | .vnull => some {}
  | _ => none

/-- Unmarshalling a `tools` array embedded in a server. -/
def decodeToolList : Option GoVal → Option (List Tool)
  | none => some []
  | some .vnull => some []
  | some (.varr elems) => decodeList decodeTool elems
  | some _ => none

/-- Unmarshalling one `Server` from its JSON object. -/
def decodeServer : GoVal → Option Server
  | .vobj fields => do
      let id ← decodeStr (lookupKey fields "id")
      let name ← decodeStr (lookupKey fields "name")
      let descr ← decodeStr (lookupKey fields "description")
      let version ← decodeStr (lookupKey fields "version")
      let url ← decodeStr (lookupKey fields "url")
      let stype ← decodeStr (lookupKey fields "type")
      let status ← decodeStr (lookupKey fields "status")
      let tools ← decodeToolList (lookupKey fields "tools")
      let created ← decodeInt (lookupKey fields "created_at")
      let updated ← decodeInt (lookupKey fields "updated_at")
      let md ← decodeMetadata (lookupKey fields "metadata")
      some { ID := id, Name := name, Description := descr, Version := version,
             URL := url, Type' := stype, Status := status, Tools := tools,
             CreatedAt := created, UpdatedAt := updated, Metadata := md }
  | .vnull => some {}
  | _ => none

/-- The persisted registry snapshot: the anonymous struct `saveConfig`
marshals and `loadConfig` unmarshals. -/
structure ConfigSnapshot where
  Servers : List (String × Server) := []
  Tools : List (String × Tool) := []
  AutoApprove : Bool := false
  Timeout : Int := 0

/-- Unmarshalling the `servers` map of the snapshot. -/
def decodeServersMap : Option GoVal → Option (List (String × Server))
  | none => some []
  | some .vnull => some []
  | some (.vobj fields) => decodeObjWith decodeServer fields
  | some _ => none

/-- Unmarshalling the `tools` map of the snapshot. -/
def decodeToolsMap : Option GoVal → Option (List (String × Tool))
  | none => some []
  | some .vnull => some []
  | some (.vobj fields) => decodeObjWith decodeTool fields
  | some _ => none

/-- Unmarshalling the whole snapshot object. -/
def decodeConfig : GoVal → Option ConfigSnapshot
  | .vobj fields => do
      let servers ← decodeServersMap (lookupKey fields "servers")
      let tools ← decodeToolsMap (lookupKey fields "tools")
      let autoApprove ← decodeBoolField (lookupKey fields "auto_approve")
      let timeout ← decodeInt (lookupKey fields "timeout")
      some { Servers := servers, Tools := tools, AutoApprove := autoApprove,
             Timeout := timeout }
  | _ => none

/-! ### The Manager (`manager.go`): registry + dispatcher. Locks are dropped
(single-threaded embedding); `uuid.New()`, `time.Now()` and filesystem
outcomes are inputs. -/

/-- The `Manager` record: server/tool registries, policy flags, the config
file path and the per-server executor cache. -/
structure Manager where
  servers : List (String × Server) := []
  tools : List (String × Tool) := []
  autoApprove : Bool := false
  timeout : Int := 0
  configPath : String := ""
  executors : List (String × ToolExecutor) := []

/-- `NewManager`: empty registries, auto-approve off, 30-second timeout. -/
def NewManager (configPath : String) : Manager :=
  { servers := [], tools := [], autoApprove := false,
    timeout := 30 * 1000000000, configPath := configPath, executors := [] }

/-- The snapshot document `saveConfig` marshals. -/
def Manager.saveConfigData (m : Manager) : GoVal :=
  .vobj [("servers", .vobj (m.servers.map (fun kv => (kv.1, encodeServer kv.2)))),
         ("tools", .vobj (m.tools.map (fun kv => (kv.1, encodeTool kv.2)))),
         ("auto_approve", .vbool m.autoApprove),
         ("timeout", .vnum m.timeout)]

/-- `saveConfig`: marshal the registry and write it out. `fsErr` is the
filesystem's verdict (`MkdirAll`/`WriteFile`): `none` means the write
succeeded and the file now holds the snapshot. -/
def Manager.saveConfig (m : Manager) (fsErr : Option String) : Except String GoVal :=
  match fsErr with
  | some e => .error e
  | none => .ok m.saveConfigData

/-- What a mutating Manager call comes back with: the Go `error` (`none` =
nil), the Manager's in-memory state afterwards, and the snapshot written to
disk when the persist succeeded. -/
structure MutResult where
  err : Option String
  manager : Manager
  written : Option GoVal

/-- Run the trailing `return m.saveConfig()` of a mutating call on the
already-mutated state. -/
def Manager.persist (m : Manager) (fsErr : Option String) : MutResult :=
  match m.saveConfig fsErr with
  | .ok d => { err := none, manager := m, written := some d }
  | .error e => { err := some e, manager := m, written := none }

/-- `AddServer`: assign `genID` when the ID is empty, stamp both timestamps
with `now`, insert (overwriting any same-ID entry), persist. -/
def Manager.AddServer (m : Manager) (server : Server) (genID : String) (now : Int)
    (fsErr : Option String) : MutResult :=
  let server := if server.ID = "" then { server with ID := genID } else server
  let server := { server with CreatedAt := now, UpdatedAt := now }
  Manager.persist { m with servers := insertKey m.servers server.ID server } fsErr

/-- `RemoveServer`: NotFound when absent; otherwise delete every tool whose
`ServerID` matches, delete the server, persist. -/
def Manager.RemoveServer (m : Manager) (serverID : String)
    (fsErr : Option String) : MutResult :=
  match lookupKey m.servers serverID with
  | none => { err := some "server not found", manager := m, written := none }
  | some _ =>
      Manager.persist
        { m with tools := m.tools.filter (fun kv => kv.2.ServerID != serverID),
                 servers := eraseKey m.servers serverID } fsErr

/-- `GetServer`. -/
def Manager.GetServer (m : Manager) (serverID : String) : Except String Server :=
  match lookupKey m.servers serverID with
  | none => .error "server not found"
  | some s => .ok s

/-- `ListServers`. -/
def Manager.ListServers (m : Manager) : List Server :=
  listValues m.servers

/-- `StartServer`: NotFound when absent; otherwise set Status to `running`,
stamp `UpdatedAt`, persist. -/
def Manager.StartServer (m : Manager) (serverID : String) (now : Int)
    (fsErr : Option String) : MutResult :=
  match lookupKey m.servers serverID with
  | none => { err := some "server not found", manager := m, written := none }
  | some server =>
      Manager.persist
        { m with servers := insertKey m.servers serverID
                   { server with Status := ServerStatusRunning, UpdatedAt := now } } fsErr

/-- `StopServer`: NotFound when absent; otherwise set Status to `stopped`,
stamp `UpdatedAt`, persist. -/
def Manager.StopServer (m : Manager) (serverID : String) (now : Int)
    (fsErr : Option String) : MutResult :=
  match lookupKey m.servers serverID with
  | none => { err := some "server not found", manager := m, written := none }
  | some server =>
      Manager.persist
        { m with servers := insertKey m.servers serverID
                   { server with Status := ServerStatusStopped, UpdatedAt := now } } fsErr

/-- `GetTool`. -/
def Manager.GetTool (m : Manager) (toolID : String) : Except String Tool :=
  match lookupKey m.tools toolID with
  | none => .error "tool not found"
  | some t => .ok t

/-- `ListTools`. -/
def Manager.ListTools (m : Manager) : List Tool :=
  listValues m.tools

/-- `SetAutoApprove`: flip the flag, persist. -/
def Manager.SetAutoApprove (m : Manager) (enabled : Bool)
    (fsErr : Option String) : MutResult :=
  Manager.persist { m with autoApprove := enabled } fsErr

/-- `SetTimeout`: set the global timeout, persist. -/
def Manager.SetTimeout (m : Manager) (timeout : Int)
    (fsErr : Option String) : MutResult :=
  Manager.persist { m with timeout := timeout } fsErr

/-- What the outer `ExecuteTool` call comes back with: the Go pair
`(*ToolResult, error)`, or a panic propagated out of the executor. -/
inductive CallOutcome where
  | callError (msg : String)
  | result (r : ToolResult)
  | panicked (msg : String)

/-- The result translation at the end of `ExecuteTool`: repackage the
executor's `ToolExecutionResult` as the public `ToolResult`; an executor
call error is propagated as the call's own error. -/
def translateExec (toolID : String) : ExecOutcome → CallOutcome
  | .callError e => .callError e
  | .panicked p => .panicked p
  | .result r =>
      .result { ToolID := toolID, Status := r.Status, Result := r.Result,
                Error := r.Error, StartTime := r.StartTime, EndTime := r.EndTime }

/-- `ExecuteTool`: look the tool up, require its server to exist and be
`running`, fetch or lazily construct-and-cache the executor matching the
server's type, delegate, and translate the result. Returns the call outcome
together with the Manager afterwards (the executor cache may have grown). -/
def Manager.ExecuteTool (m : Manager) (toolID : String)
    (params : List (String × GoVal)) (httpOutcome : HTTPOutcome)
    (startTime endTime : Int) : CallOutcome × Manager :=
  match lookupKey m.tools toolID with
  | none => (.callError "tool not found", m)
  | some tool =>
      match lookupKey m.servers tool.ServerID with
      | none => (.callError "server error: server not found", m)
      | some server =>
          if server.Status ≠ ServerStatusRunning then
            (.callError "server is not running", m)
          else
            match lookupKey m.executors tool.ServerID with
            | some executor =>
                (translateExec toolID
                   (executor.Execute tool params httpOutcome startTime endTime), m)
            | none =>
                if server.Type' = ServerTypeLocal then
                  let executor := ToolExecutor.localExec NewLocalExecutor
                  (translateExec toolID
                     (executor.Execute tool params httpOutcome startTime endTime),
                   { m with executors := insertKey m.executors tool.ServerID executor })
                else if server.Type' = ServerTypeRemote then
                  let executor := ToolExecutor.httpExec (NewHTTPExecutor m.timeout)
                  (translateExec toolID
                     (executor.Execute tool params httpOutcome startTime endTime),
                   { m with executors := insertKey m.executors tool.ServerID executor })
                else
                  (.callError ("unsupported server type: " ++ server.Type'), m)

/-- The outcome of `os.ReadFile` + `json.Unmarshal` in `loadConfig`: the file
is absent, unreadable, or holds bytes whose JSON parse succeeded or failed. -/
inductive FileRead where
  | missing
  | readErr (msg : String)
  | data (parsed : Except String GoVal)

/-- `loadConfig`: a missing file is a silent no-op; a read or parse failure
is the call's error; otherwise the four persisted fields replace the
in-memory ones. -/
def Manager.loadConfig (m : Manager) (file : FileRead) : Except String Manager :=
  match file with
  | .missing => .ok m
  | .readErr e => .error e
  | .data (.error e) => .error e
  | .data (.ok v) =>
      match decodeConfig v with
      | none => .error "cannot unmarshal config"
      | some c =>
          .ok { m with servers := c.Servers, tools := c.Tools,
                       autoApprove := c.AutoApprove, timeout := c.Timeout }

/-! ### Declarative configuration (`config.go`) -/

/-- `ToolConfig`: one declarative tool file's object. Numeric knobs are Go
ints (possibly negative, hence `Int`). -/
structure ToolConfig where
  ID : String := ""
  Name : String := ""
  Description : String := ""
  Version : String := ""
  Author : String := ""
  Parameters : List ToolParameter := []
  Metadata : List (String × String) := []
  Timeout : Int := 0
  RetryCount : Int := 0
  RetryDelay : Int := 0
  Concurrency : Int := 0
  RateLimit : Int := 0
  RequireAuth : Bool := false
  AllowRoles : List String := []
  AllowIPs : List String := []
  LogLevel : String := ""
  LogFile : String := ""
  LogFormat : String := ""
  LogMaxSize : Int := 0
  LogMaxFiles : Int := 0
deriving Inhabited

/-- `ServerConfig`: one declarative server file's object. -/
structure ServerConfig where
  ID : String := ""
  Name : String := ""
  Description : String := ""
  Version : String := ""
  Type' : String := ""
  URL : String := ""
  Metadata : List (String × String) := []
  Tools : List ToolConfig := []
  Port : Int := 0
  Host : String := ""
  SSLEnabled : Bool := false
  SSLCertFile : String := ""
  SSLKeyFile : String := ""
  AllowedOrigins : List String := []
  AllowedMethods : List String := []
  AllowedHeaders : List String := []
  MaxRequestSize : Int := 0
  ReadTimeout : Int := 0
  WriteTimeout : Int := 0
  IdleTimeout : Int := 0
  ShutdownTimeout : Int := 0
deriving Inhabited

/-- The parameter loop of `validateToolConfig`, carrying the index the error
message reports. -/
def validateParamList : List ToolParameter → Nat → Except String Unit
  | [], _ => .ok ()
  | p :: rest, i =>
      if p.Name = "" then
        .error ("parameter name is required at index " ++ toString i)
      else if p.Type' = "" then
        .error ("parameter type is required for parameter " ++ p.Name)
      else validateParamList rest (i + 1)

/-- `validateToolConfig`: identity fields present, parameters well formed,
numeric knobs non-negative. -/
def validateToolConfig (config : ToolConfig) : Except String Unit :=
  if config.ID = "" then .error "tool ID is required"
  else if config.Name = "" then .error "tool name is required"
  else if config.Version = "" then .error "tool version is required"
  else
    match validateParamList config.Parameters 0 with
    | .error e => .error e
    | .ok () =>
        if config.Timeout < 0 then .error "timeout must be non-negative"
        else if config.RetryCount < 0 then .error "retry count must be non-negative"
        else if config.RetryDelay < 0 then .error "retry delay must be non-negative"
        else if config.Concurrency < 0 then .error "concurrency must be non-negative"
        else if config.RateLimit < 0 then .error "rate limit must be non-negative"
        else if config.LogMaxSize < 0 then .error "log max size must be non-negative"
        else if config.LogMaxFiles < 0 then .error "log max files must be non-negative"
        else .ok ()

/-- The nested tool loop of `validateServerConfig`. -/
def validateToolList : List ToolConfig → Nat → Except String Unit
  | [], _ => .ok ()
  | t :: rest, i =>
      match validateToolConfig t with
      | .error e => .error ("invalid tool config at index " ++ toString i ++ ": " ++ e)
      | .ok () => validateToolList rest (i + 1)

/-- `validateServerConfig`: identity fields (including `Type`) present,
nested tools valid, port in range, SSL files present when SSL is on, server
timeouts non-negative. -/
def validateServerConfig (config : ServerConfig) : Except String Unit :=
  if config.ID = "" then .error "server ID is required"
  else if config.Name = "" then .error "server name is required"
  else if config.Version = "" then .error "server version is required"
  else if config.Type' = "" then .error "server type is required"
  else
    match validateToolList config.Tools 0 with
    | .error e => .error e
    | .ok () =>
        if config.Port < 0 || config.Port > 65535 then .error "invalid port number"
        else if config.SSLEnabled && config.SSLCertFile = "" then
          .error "SSL certificate file is required when SSL is enabled"
        else if config.SSLEnabled && config.SSLKeyFile = "" then
          .error "SSL key file is required when SSL is enabled"
        else if config.ReadTimeout < 0 then .error "read timeout must be non-negative"
        else if config.WriteTimeout < 0 then .error "write timeout must be non-negative"
        else if config.IdleTimeout < 0 then .error "idle timeout must be non-negative"
        else if config.ShutdownTimeout < 0 then
          .error "shutdown timeout must be non-negative"
        else .ok ()

/-- `LoadToolConfig`: given the read-and-parse outcome of the file, reject
what `validateToolConfig` rejects, return the object otherwise. -/
def LoadToolConfig (readParse : Except String ToolConfig) : Except String ToolConfig :=
  match readParse with
  | .error e => .error e
  | .ok config =>
      match validateToolConfig config with
      | .error e => .error ("invalid tool config: " ++ e)
      | .ok () => .ok config

/-- `LoadServerConfig`: same gate over `validateServerConfig`. -/
def LoadServerConfig (readParse : Except String ServerConfig) :
    Except String ServerConfig :=
  match readParse with
  | .error e => .error e
  | .ok config =>
      match validateServerConfig config with
      | .error e => .error ("invalid server config: " ++ e)
      | .ok () => .ok config

/-- The `Tool` record `Manager.LoadToolFromConfig` builds from a loaded
config: note the absence of any `ServerID` assignment (Go zero value `""`). -/
def toolFromConfig (config : ToolConfig) (now : Int) : Tool :=
  { ID := config.ID, Name := config.Name, Description := config.Description,
    Version := config.Version, Author := config.Author,
    Parameters := config.Parameters, Metadata := config.Metadata,
    CreatedAt := now, UpdatedAt := now }

/-- `Manager.LoadToolFromConfig`: load-and-validate the file, register the
resulting tool, persist. -/
def Manager.LoadToolFromConfig (m : Manager) (readParse : Except String ToolConfig)
    (now : Int) (fsErr : Option String) : MutResult :=
  match LoadToolConfig readParse with
  | .error e =>
      { err := some ("failed to load tool config: " ++ e), manager := m, written := none }
  | .ok config =>
      let tool := toolFromConfig config now
      Manager.persist { m with tools := insertKey m.tools tool.ID tool } fsErr

/-! ### Remote server runner (`server.go`) -/

/-- The environment's answer to the health probe `httpClient.Get(url)`. -/
inductive HealthOutcome where
  | unreachable (msg : String)
  | reply (statusCode : Nat)

/-- `RemoteServerRunner`: a reachability-probing runner with no subprocess. -/
structure RemoteServerRunner where
  server : Server
  status : String

/-- `NewRemoteServerRunner`: starts in `stopped` status. -/
def NewRemoteServerRunner (server : Server) : RemoteServerRunner :=
  { server := server, status := ServerStatusStopped }

/-- The URL `HealthCheck` probes: the `health_url` metadata override when
set, else `ServerURL + "/health"`. -/
def RemoteServerRunner.healthTargetURL (r : RemoteServerRunner) : String :=
  let url := r.server.URL ++ "/health"
  let custom := metaLookup r.server.Metadata "health_url"
  if custom ≠ "" then custom else url

/-- `RemoteServerRunner.HealthCheck`: GET the target URL; anything but a 200
reply is a failure. `net` maps each URL to the network's answer. -/
def RemoteServerRunner.HealthCheck (r : RemoteServerRunner)
    (net : String → HealthOutcome) : Except String Unit :=
  match net r.healthTargetURL with
  | .unreachable e => .error ("health check failed: " ++ e)
  | .reply code =>
      if code ≠ 200 then .error ("health check failed with status: " ++ toString code)
      else .ok ()

/-- `RemoteServerRunner.Start`: a no-op when already `running`; otherwise one
immediate `HealthCheck` decides between `running` and `error`. -/
def RemoteServerRunner.Start (r : RemoteServerRunner)
    (net : String → HealthOutcome) : Except String Unit × RemoteServerRunner :=
  if r.status = ServerStatusRunning then (.ok (), r)
  else
    match r.HealthCheck net with
    | .error e => (.error ("server is not accessible: " ++ e),
                   { r with status := ServerStatusError })
    | .ok () => (.ok (), { r with status := ServerStatusRunning })

/-- `RemoteServerRunner.Stop`: status-only transition, no network action. -/
def RemoteServerRunner.Stop (r : RemoteServerRunner) :
    Except String Unit × RemoteServerRunner :=
  if r.status ≠ ServerStatusRunning then (.ok (), r)
  else (.ok (), { r with status := ServerStatusStopped })

/-! ## Map lemmas -/

theorem lookupKey_eraseKey_self {α : Type} (xs : List (String × α)) (k : String) :
    lookupKey (eraseKey xs k) k = none := by
  induction xs with
  | nil => rfl
  | cons kv rest ih =>
      by_cases h : kv.1 = k
      · simpa [eraseKey, List.filter_cons, h] using ih
      · simpa [eraseKey, List.filter_cons, h, lookupKey] using ih

theorem serverID_ne_of_mem_filtered (tools : List (String × Tool)) (serverID : String)
    (t : Tool)
    (ht : t ∈ listValues (tools.filter (fun kv => kv.2.ServerID != serverID))) :
    t.ServerID ≠ serverID := by
  simp only [listValues, List.mem_map, List.mem_filter, bne_iff_ne] at ht
  obtain ⟨⟨k, t'⟩, ⟨_, hne⟩, rfl⟩ := ht
  exact hne

/-! ## Claim theorems -/

/-- C1. `ExecuteTool` on a tool whose owning server exists but is not
`running` fails with the "server is not running" precondition error, for
every parameter map and every environment outcome — so no executor is
obtained or invoked — and the Manager (registries, flags and executor cache
alike) is returned unchanged: the server is not started. -/
theorem executeTool_server_not_running (m : Manager) (toolID : String) (tool : Tool)
    (server : Server) (params : List (String × GoVal)) (httpOutcome : HTTPOutcome)
    (startTime endTime : Int)
    (ht : lookupKey m.tools toolID = some tool)
    (hs : lookupKey m.servers tool.ServerID = some server)
    (hr : server.Status ≠ ServerStatusRunning) :
    m.ExecuteTool toolID params httpOutcome startTime endTime =
      (.callError "server is not running", m) := by
  simp [Manager.ExecuteTool, ht, hs, hr]

/-- Witness for C1: a concrete registry with one stopped server. -/
def stoppedRegistry : Manager :=
  { NewManager "cfg.json" with
      servers := [("s1", { ID := "s1", Type' := ServerTypeLocal,
                           Status := ServerStatusStopped })],
      tools := [("t1", { ID := "t1", ServerID := "s1" })] }

theorem executeTool_server_not_running_witness :
    stoppedRegistry.ExecuteTool "t1" [] (.response 200 (.ok .vnull)) 0 0 =
      (.callError "server is not running", stoppedRegistry) :=
  executeTool_server_not_running stoppedRegistry "t1" _ _ [] _ 0 0 rfl rfl
    (by decide)

/-- C3. `RemoveServer` on an absent id fails with NotFound and changes
nothing; on a present id it removes that server, deletes every tool whose
`ServerID` matches (so `ListTools` afterwards has no such tool), and writes
the new registry snapshot when the filesystem write succeeds. -/
theorem removeServer_cascades (m : Manager) (serverID : String)
    (fsErr : Option String) :
    (lookupKey m.servers serverID = none →
      m.RemoveServer serverID fsErr =
        { err := some "server not found", manager := m, written := none })
    ∧ (∀ s, lookupKey m.servers serverID = some s →
        lookupKey (m.RemoveServer serverID fsErr).manager.servers serverID = none
        ∧ (m.RemoveServer serverID fsErr).manager.tools =
            m.tools.filter (fun kv => kv.2.ServerID != serverID)
        ∧ (∀ t ∈ (m.RemoveServer serverID fsErr).manager.ListTools,
            t.ServerID ≠ serverID)
        ∧ (fsErr = none →
            (m.RemoveServer serverID fsErr).err = none
            ∧ (m.RemoveServer serverID fsErr).written =
                some (m.RemoveServer serverID fsErr).manager.saveConfigData)) := by
  constructor
  · intro h
    simp [Manager.RemoveServer, h]
  · intro s hs
    refine ⟨?_, ?_, ?_, ?_⟩
    · simp [Manager.RemoveServer, hs, Manager.persist, Manager.saveConfig]
      cases fsErr <;> simp [lookupKey_eraseKey_self]
    · simp [Manager.RemoveServer, hs, Manager.persist, Manager.saveConfig]
      cases fsErr <;> simp
    · intro t htl
      simp only [Manager.RemoveServer, hs, Manager.persist, Manager.saveConfig] at htl
      cases fsErr <;>
        exact serverID_ne_of_mem_filtered m.tools serverID t (by simpa using htl)
    · rintro rfl
      simp [Manager.RemoveServer, hs, Manager.persist, Manager.saveConfig]

/-- Witness for C3: removing the only server of a two-tool registry. -/
def twoToolRegistry : Manager :=
  { NewManager "cfg.json" with
      servers := [("s1", { ID := "s1", Type' := ServerTypeLocal })],
      tools := [("t1", { ID := "t1", ServerID := "s1" }),
                ("t2", { ID := "t2", ServerID := "other" })] }

theorem removeServer_cascades_witness :
    lookupKey ((twoToolRegistry.RemoveServer "s1" none).manager.servers) "s1" = none
    ∧ ∀ t ∈ (twoToolRegistry.RemoveServer "s1" none).manager.ListTools,
        t.ServerID ≠ "s1" := by
  have h := removeServer_cascades twoToolRegistry "s1" none
  obtain ⟨h1, h2, h3, _⟩ := h.2 _ rfl
  exact ⟨h1, h3⟩

/-- C7. When the registry write fails, every mutating Manager call returns
the write error, yet its in-memory mutation stands exactly as a successful
call would have left it (no rollback), and nothing reaches the file: memory
and disk disagree until a later persist succeeds. -/
theorem persistFailure_no_rollback (m : Manager) (server : Server) (genID : String)
    (now : Int) (e : String) (enabled : Bool) (timeoutVal : Int) (serverID : String)
    (hs : lookupKey m.servers serverID ≠ none) :
    m.AddServer server genID now (some e) =
      { err := some e, manager := (m.AddServer server genID now none).manager,
        written := none }
    ∧ m.RemoveServer serverID (some e) =
      { err := some e, manager := (m.RemoveServer serverID none).manager,
        written := none }
    ∧ m.StartServer serverID now (some e) =
      { err := some e, manager := (m.StartServer serverID now none).manager,
        written := none }
    ∧ m.StopServer serverID now (some e) =
      { err := some e, manager := (m.StopServer serverID now none).manager,
        written := none }
    ∧ m.SetAutoApprove enabled (some e) =
      { err := some e, manager := (m.SetAutoApprove enabled none).manager,
        written := none }
    ∧ m.SetTimeout timeoutVal (some e) =
      { err := some e, manager := (m.SetTimeout timeoutVal none).manager,
        written := none } := by
  obtain ⟨s, hsome⟩ := Option.ne_none_iff_exists'.mp hs
  refine ⟨?_, ?_, ?_, ?_, ?_, ?_⟩ <;>
    simp [Manager.AddServer, Manager.RemoveServer, Manager.StartServer,
          Manager.StopServer, Manager.SetAutoApprove, Manager.SetTimeout,
          Manager.persist, Manager.saveConfig, hsome]

theorem persistFailure_no_rollback_witness :
    twoToolRegistry.SetAutoApprove true (some "disk full") =
      { err := some "disk full",
        manager := (twoToolRegistry.SetAutoApprove true none).manager,
        written := none }
    ∧ twoToolRegistry.RemoveServer "s1" (some "disk full") =
      { err := some "disk full",
        manager := (twoToolRegistry.RemoveServer "s1" none).manager,
        written := none } := by
  have h := persistFailure_no_rollback twoToolRegistry {} "g" 0 "disk full" true 0 "s1"
    (by simp [twoToolRegistry, NewManager, lookupKey])
  exact ⟨h.2.2.2.2.1, h.2.1⟩

/-- C8 counterexample: a `RemoteServerRunner` that is already `running`
skips the health check entirely — `Start` against an unreachable endpoint
returns success and the status does not become `error`, contradicting the
claim's unconditional "unreachable means Start returns an error and Status
becomes Error". -/
def runningRemoteRunner : RemoteServerRunner :=
  { server := { ID := "r1", URL := "http://unreachable.example" },
    status := ServerStatusRunning }

theorem remoteStart_already_running_cex :
    (runningRemoteRunner.Start (fun _ => .unreachable "connection refused")).1 =
      .ok ()
    ∧ (runningRemoteRunner.Start
        (fun _ => .unreachable "connection refused")).2.status =
      ServerStatusRunning := by
  constructor <;> rfl

/-- C8 (amended: for a runner that is not already `running`; an
already-running runner returns success with no health check). `Start`
performs one immediate `HealthCheck` against `ServerURL ++ "/health"` or the
metadata override: unreachable or non-200 means `Start` fails and the status
becomes `error`; a 200 reply means `Start` succeeds and the status becomes
`running` — with no subprocess in the model at all. -/
theorem remoteStart_health_transition (r : RemoteServerRunner)
    (net : String → HealthOutcome) (h : r.status ≠ ServerStatusRunning) :
    (∀ e, net r.healthTargetURL = .unreachable e →
      (r.Start net).1 =
          .error ("server is not accessible: health check failed: " ++ e)
        ∧ (r.Start net).2.status = ServerStatusError)
    ∧ (∀ code, net r.healthTargetURL = .reply code → code ≠ 200 →
        (r.Start net).1 =
            .error ("server is not accessible: health check failed with status: "
              ++ toString code)
          ∧ (r.Start net).2.status = ServerStatusError)
    ∧ (net r.healthTargetURL = .reply 200 →
        (r.Start net).1 = .ok () ∧ (r.Start net).2.status = ServerStatusRunning)
    ∧ r.healthTargetURL =
        (if metaLookup r.server.Metadata "health_url" ≠ "" then
          metaLookup r.server.Metadata "health_url"
        else r.server.URL ++ "/health") := by
  refine ⟨?_, ?_, ?_, rfl⟩
  · intro e he
    constructor <;>
      simp [RemoteServerRunner.Start, RemoteServerRunner.HealthCheck, h, he,
        ← String.append_assoc]
  · intro code hc hne
    constructor <;>
      simp [RemoteServerRunner.Start, RemoteServerRunner.HealthCheck, h, hc, hne,
        ← String.append_assoc]
  · intro hc
    constructor <;>
      simp [RemoteServerRunner.Start, RemoteServerRunner.HealthCheck, h, hc]

theorem remoteStart_health_transition_witness :
    ((NewRemoteServerRunner { ID := "r1", URL := "http://h.example" }).Start
        (fun _ => .unreachable "connection refused")).2.status = ServerStatusError
    ∧ ((NewRemoteServerRunner { ID := "r1", URL := "http://h.example" }).Start
        (fun _ => .reply 200)).1 = .ok () := by
  refine ⟨?_, ?_⟩
  · exact ((remoteStart_health_transition
      (NewRemoteServerRunner { ID := "r1", URL := "http://h.example" })
      (fun _ => .unreachable "connection refused") (by decide)).1
        "connection refused" rfl).2
  · exact ((remoteStart_health_transition
      (NewRemoteServerRunner { ID := "r1", URL := "http://h.example" })
      (fun _ => .reply 200) (by decide)).2.2.1 rfl).1

/-- C10. A tool registered through `LoadToolFromConfig` carries the Go zero
`ServerID = ""` (no association is assigned); and for any tool whose
`ServerID` is `""` in a registry with no empty-ID server, `ExecuteTool`
fails with the wrapped server-not-found error, unchanged state, before any
status check or executor is reached (the outcome is the same for every
server status and environment outcome). -/
theorem loadToolFromConfig_dangling_server (m : Manager) (config : ToolConfig)
    (now : Int) (fsErr : Option String) (m2 : Manager) (toolID : String) (t : Tool)
    (params : List (String × GoVal)) (httpOutcome : HTTPOutcome) (st en : Int)
    (hv : validateToolConfig config = .ok ())
    (ht : lookupKey m2.tools toolID = some t)
    (hsid : t.ServerID = "")
    (hns : lookupKey m2.servers "" = none) :
    ((m.LoadToolFromConfig (.ok config) now fsErr).manager.tools =
        insertKey m.tools config.ID (toolFromConfig config now)
      ∧ (toolFromConfig config now).ServerID = "")
    ∧ m2.ExecuteTool toolID params httpOutcome st en =
        (.callError "server error: server not found", m2) := by
  refine ⟨⟨?_, rfl⟩, ?_⟩
  · simp only [Manager.LoadToolFromConfig, LoadToolConfig, hv]
    cases fsErr <;> simp [Manager.persist, Manager.saveConfig, toolFromConfig]
  · simp [Manager.ExecuteTool, ht, hsid, hns]

/-- A concrete standalone tool config and the registry holding the tool it
loads, for the C10 witness. -/
def standaloneToolCfg : ToolConfig := { ID := "t9", Name := "tool", Version := "1.0" }

/-- The registry after loading `standaloneToolCfg` into a fresh manager. -/
def danglingToolRegistry : Manager :=
  { NewManager "cfg.json" with tools := [("t9", toolFromConfig standaloneToolCfg 0)] }

theorem loadToolFromConfig_dangling_server_witness :
    (((NewManager "cfg.json").LoadToolFromConfig
        (.ok standaloneToolCfg) 0 none).manager.tools =
      insertKey (NewManager "cfg.json").tools "t9"
        (toolFromConfig standaloneToolCfg 0))
    ∧ danglingToolRegistry.ExecuteTool "t9" [] (.response 200 (.ok .vnull)) 0 0 =
      (.callError "server error: server not found", danglingToolRegistry) := by
  have h := loadToolFromConfig_dangling_server (NewManager "cfg.json")
    standaloneToolCfg 0 none danglingToolRegistry "t9"
    (toolFromConfig standaloneToolCfg 0)
    [] (.response 200 (.ok .vnull)) 0 0 rfl rfl rfl rfl
  exact ⟨h.1.1, h.2⟩

/-! ## Validation characterization -/

theorem checkRequired_ok_iff (declared : List ToolParameter)
    (params : List (String × GoVal)) :
    checkRequired declared params = .ok () ↔
      ∀ p ∈ declared, p.Required = true → (lookupKey params p.Name).isSome := by
  induction declared with
  | nil => simp [checkRequired]
  | cons p rest ih =>
      by_cases h : p.Required && (lookupKey params p.Name).isNone
      · rw [Bool.and_eq_true, Option.isNone_iff_eq_none] at h
        simp [checkRequired, h.1, h.2]
      · rw [Bool.and_eq_true, Option.isNone_iff_eq_none] at h
        push_neg at h
        have hok : ¬(p.Required = true ∧ (lookupKey params p.Name).isNone = true) := by
          rw [Option.isNone_iff_eq_none]; exact fun hc => h hc.1 hc.2
        simp only [checkRequired, Bool.and_eq_true, if_neg hok, ih,
          List.mem_cons]
        constructor
        · rintro hall q hmem hreq
          rcases hmem with rfl | hq
          · exact Option.isSome_iff_ne_none.mpr (h hreq)
          · exact hall q hq hreq
        · intro hall q hq hreq
          exact hall q (Or.inr hq) hreq

theorem checkSupplied_ok_iff (declared : List ToolParameter)
    (entries : List (String × GoVal)) :
    checkSupplied declared entries = .ok () ↔
      ∀ kv ∈ entries, ∃ pd, findParam declared kv.1 = some pd ∧
        validateParameterType pd.Type' kv.2 = .ok () := by
  induction entries with
  | nil => simp [checkSupplied]
  | cons kv rest ih =>
      obtain ⟨name, value⟩ := kv
      cases hf : findParam declared name with
      | none => simp [checkSupplied, hf]
      | some pd =>
          cases hv : validateParameterType pd.Type' value with
          | error e => simp [checkSupplied, hf, hv]
          | ok u => cases u; simp [checkSupplied, hf, hv, ih]

theorem validateParameters_ok_iff (t : Tool) (params : List (String × GoVal)) :
    t.ValidateParameters params = .ok () ↔
      (∀ p ∈ t.Parameters, p.Required = true → (lookupKey params p.Name).isSome)
      ∧ (∀ kv ∈ params, ∃ pd, findParam t.Parameters kv.1 = some pd ∧
          validateParameterType pd.Type' kv.2 = .ok ()) := by
  unfold Tool.ValidateParameters
  cases hr : checkRequired t.Parameters params with
  | error e =>
      constructor
      · intro h; cases h
      · rintro ⟨h1, _⟩
        rw [← checkRequired_ok_iff] at h1
        rw [hr] at h1
        cases h1
  | ok u =>
      cases u
      rw [checkSupplied_ok_iff]
      have h1 := (checkRequired_ok_iff t.Parameters params).mp hr
      exact ⟨fun h2 => ⟨h1, h2⟩, fun h => h.2⟩

theorem except_error_of_ne_ok {r : Except String Unit} (h : r ≠ .ok ()) :
    ∃ e, r = .error e := by
  cases r with
  | error e => exact ⟨e, rfl⟩
  | ok u => cases u; exact absurd rfl h

/-- C2. A parameter map that omits a required parameter, or carries an
undeclared key, or carries a value whose runtime shape mismatches the
declared tag (one of string/number/boolean/array/object), fails validation;
both executor variants then fail the call itself with the wrapped validation
error — the same error for every handler table and transport outcome, so no
invocation is attempted and no result value is produced. -/
theorem validationFailure_blocks_execution (t : Tool)
    (params : List (String × GoVal))
    (hviol :
      (∃ p ∈ t.Parameters, p.Required = true ∧ lookupKey params p.Name = none)
      ∨ (∃ kv ∈ params, findParam t.Parameters kv.1 = none)
      ∨ (∃ kv ∈ params, ∃ pd, findParam t.Parameters kv.1 = some pd ∧
          pd.Type' ∈ ["string", "number", "boolean", "array", "object"] ∧
          validateParameterType pd.Type' kv.2 ≠ .ok ())) :
    ∃ e, t.ValidateParameters params = .error e
      ∧ (∀ le st en, LocalExecutor.Execute le t params st en =
          .callError ("parameter validation failed: " ++ e))
      ∧ (∀ outcome st en, HTTPExecutor.Execute t params outcome st en =
          .callError ("parameter validation failed: " ++ e)) := by
  have hnotok : t.ValidateParameters params ≠ .ok () := by
    intro hok
    rw [validateParameters_ok_iff] at hok
    rcases hviol with ⟨p, hp, hreq, hmiss⟩ | ⟨kv, hkv, hnone⟩ | ⟨kv, hkv, pd, hpd, _, hbad⟩
    · have := hok.1 p hp hreq
      rw [hmiss] at this
      cases this
    · obtain ⟨pd, hpd, _⟩ := hok.2 kv hkv
      rw [hnone] at hpd
      cases hpd
    · obtain ⟨pd', hpd', hty⟩ := hok.2 kv hkv
      rw [hpd] at hpd'
      cases hpd'
      exact hbad hty
  obtain ⟨e, he⟩ := except_error_of_ne_ok hnotok
  refine ⟨e, he, ?_, ?_⟩
  · intro le st en
    simp [LocalExecutor.Execute, he]
  · intro outcome st en
    simp [HTTPExecutor.Execute, he]

/-- Witness for C2: a tool with one required string parameter, called with
an empty parameter map. -/
def echoTool : Tool :=
  { ID := "t1", Name := "echo", ServerID := "s1",
    Parameters := [{ Name := "x", Type' := "string", Required := true }] }

theorem validationFailure_blocks_execution_witness :
    ∃ e, echoTool.ValidateParameters [] = .error e
      ∧ (∀ le st en, LocalExecutor.Execute le echoTool [] st en =
          .callError ("parameter validation failed: " ++ e))
      ∧ (∀ outcome st en, HTTPExecutor.Execute echoTool [] outcome st en =
          .callError ("parameter validation failed: " ++ e)) :=
  validationFailure_blocks_execution echoTool []
    (Or.inl ⟨{ Name := "x", Type' := "string", Required := true },
      by simp [echoTool], rfl, rfl⟩)

/-- C4. With the tool found and its server `running`: when no executor is
cached for the tool's `ServerID`, the Manager constructs one from the
server's `Type` — `local` gives a fresh handler-dispatch `LocalExecutor`,
`remote` an `HTTPExecutor` carrying the Manager's global timeout, anything
else fails the call with no cache change — and stores it under the server's
ID; when one is cached, that same executor is the one that runs and the
cache (indeed the whole Manager) is unchanged, so later calls for tools of
the same server reuse it rather than construct a new one. -/
theorem executeTool_executor_caching (m : Manager) (toolID : String) (tool : Tool)
    (server : Server) (params : List (String × GoVal)) (httpOutcome : HTTPOutcome)
    (st en : Int)
    (ht : lookupKey m.tools toolID = some tool)
    (hs : lookupKey m.servers tool.ServerID = some server)
    (hr : server.Status = ServerStatusRunning) :
    (∀ ex, lookupKey m.executors tool.ServerID = some ex →
      m.ExecuteTool toolID params httpOutcome st en =
        (translateExec toolID (ex.Execute tool params httpOutcome st en), m))
    ∧ (lookupKey m.executors tool.ServerID = none →
        (server.Type' = ServerTypeLocal →
          m.ExecuteTool toolID params httpOutcome st en =
            (translateExec toolID
              ((ToolExecutor.localExec NewLocalExecutor).Execute
                tool params httpOutcome st en),
             { m with executors :=
                 insertKey m.executors tool.ServerID (ToolExecutor.localExec NewLocalExecutor) }))
        ∧ (server.Type' = ServerTypeRemote →
          m.ExecuteTool toolID params httpOutcome st en =
            (translateExec toolID
              ((ToolExecutor.httpExec (NewHTTPExecutor m.timeout)).Execute
                tool params httpOutcome st en),
             { m with executors :=
                 insertKey m.executors tool.ServerID (ToolExecutor.httpExec (NewHTTPExecutor m.timeout)) }))
        ∧ (server.Type' ≠ ServerTypeLocal → server.Type' ≠ ServerTypeRemote →
          m.ExecuteTool toolID params httpOutcome st en =
            (.callError ("unsupported server type: " ++ server.Type'), m))) := by
  constructor
  · intro ex hex
    simp [Manager.ExecuteTool, ht, hs, hr, hex]
  · intro hnone
    refine ⟨?_, ?_, ?_⟩
    · intro hty
      simp [Manager.ExecuteTool, ht, hs, hr, hnone, hty]
    · intro hty
      simp [Manager.ExecuteTool, ht, hs, hr, hnone, hty, ServerTypeLocal,
        ServerTypeRemote]
    · intro hty1 hty2
      simp [Manager.ExecuteTool, ht, hs, hr, hnone, hty1, hty2]

/-- Witness for C4: a running local server with no cached executor caches a
fresh `LocalExecutor` under its ID. -/
def runningLocalRegistry : Manager :=
  { NewManager "cfg.json" with
      servers := [("s1", { ID := "s1", Type' := ServerTypeLocal,
                           Status := ServerStatusRunning })],
      tools := [("t1", { ID := "t1", ServerID := "s1" })] }

theorem executeTool_executor_caching_witness :
    runningLocalRegistry.ExecuteTool "t1" [] (.response 200 (.ok .vnull)) 0 0 =
      (translateExec "t1"
        ((ToolExecutor.localExec NewLocalExecutor).Execute
          { ID := "t1", ServerID := "s1" } [] (.response 200 (.ok .vnull)) 0 0),
       { runningLocalRegistry with
          executors := insertKey runningLocalRegistry.executors "s1"
            (ToolExecutor.localExec NewLocalExecutor) }) :=
  ((executeTool_executor_caching runningLocalRegistry "t1"
      { ID := "t1", ServerID := "s1" }
      { ID := "s1", Type' := ServerTypeLocal, Status := ServerStatusRunning }
      [] (.response 200 (.ok .vnull)) 0 0 rfl rfl rfl).2 rfl).1 rfl

/-- C5. For every invocation that yields an execution result: the Local
variant classifies a handler error as `Timeout` exactly when it is the
context-deadline sentinel and as `Error` otherwise (error string set, no
payload), and as `Success` with the payload when the handler returned none;
the HTTP variant classifies a transport failure through the same
deadline test, a body-decode failure or an HTTP ≥ 400 reply (with a JSON
object body) as `Error` with no payload, and a < 400 decoded reply as
`Success` carrying the body. -/
theorem execute_status_classification (t : Tool) (params : List (String × GoVal))
    (st en : Int) (hv : t.ValidateParameters params = .ok ()) :
    (∀ le handler, lookupKey le.handlers t.ID = some handler →
      (∀ err, handler params = .error err →
        LocalExecutor.Execute le t params st en = .result
          { Status := if errIsDeadlineExceeded err then ToolExecutionStatusTimeout
                      else ToolExecutionStatusError,
            Result := none,
            Error := if errIsDeadlineExceeded err then "execution timed out"
                     else err.message,
            StartTime := st, EndTime := en })
      ∧ (∀ value, handler params = .ok value →
        LocalExecutor.Execute le t params st en = .result
          { Status := ToolExecutionStatusSuccess, Result := some value,
            Error := "", StartTime := st, EndTime := en }))
    ∧ (∀ err, HTTPExecutor.Execute t params (.failure err) st en = .result
        { Status := if errIsDeadlineExceeded err then ToolExecutionStatusTimeout
                    else ToolExecutionStatusError,
          Result := none,
          Error := if errIsDeadlineExceeded err then "execution timed out"
                   else "request failed: " ++ err.message,
          StartTime := st, EndTime := en })
    ∧ (∀ code msg,
        HTTPExecutor.Execute t params (.response code (.error msg)) st en = .result
          { Status := ToolExecutionStatusError, Result := none,
            Error := "failed to decode response: " ++ msg,
            StartTime := st, EndTime := en })
    ∧ (∀ code fields, code ≥ 400 →
        HTTPExecutor.Execute t params (.response code (.ok (.vobj fields))) st en =
          .result
            { Status := ToolExecutionStatusError, Result := none,
              Error := match lookupKey fields "error" with
                       | some errMsg => goFormat errMsg
                       | none => "server returned status " ++ toString code,
              StartTime := st, EndTime := en })
    ∧ (∀ code body, code < 400 →
        HTTPExecutor.Execute t params (.response code (.ok body)) st en = .result
          { Status := ToolExecutionStatusSuccess, Result := some body,
            Error := "", StartTime := st, EndTime := en }) := by
  refine ⟨?_, ?_, ?_, ?_, ?_⟩
  · intro le handler hh
    constructor
    · intro err herr
      cases hd : errIsDeadlineExceeded err <;>
        simp [LocalExecutor.Execute, hv, hh, herr, hd]
    · intro value hval
      simp [LocalExecutor.Execute, hv, hh, hval]
  · intro err
    cases hd : errIsDeadlineExceeded err <;>
      simp [HTTPExecutor.Execute, hv, hd]
  · intro code msg
    simp [HTTPExecutor.Execute, hv]
  · intro code fields hge
    simp [HTTPExecutor.Execute, hv, hge]
  · intro code body hlt
    have : ¬ code ≥ 400 := by omega
    cases body <;> simp [HTTPExecutor.Execute, hv, this]

/-- Witness for C5: a no-parameter tool with a handler erroring with the
deadline sentinel yields a `timeout`-status result; a 200 reply with a
decoded body yields `success`. -/
def noParamTool : Tool := { ID := "t1", Name := "noop", ServerID := "s1" }

theorem execute_status_classification_witness :
    LocalExecutor.Execute ⟨[("t1", fun _ => .error .deadlineExceeded)]⟩
        noParamTool [] 3 7 = .result
      { Status := if errIsDeadlineExceeded .deadlineExceeded then
                    ToolExecutionStatusTimeout else ToolExecutionStatusError,
        Result := none,
        Error := if errIsDeadlineExceeded .deadlineExceeded then
                   "execution timed out" else GoErr.message .deadlineExceeded,
        StartTime := 3, EndTime := 7 }
    ∧ HTTPExecutor.Execute noParamTool [] (.response 200 (.ok (.vstr "ok"))) 3 7 =
      .result { Status := ToolExecutionStatusSuccess, Result := some (.vstr "ok"),
                Error := "", StartTime := 3, EndTime := 7 } := by
  have h := execute_status_classification noParamTool [] 3 7 rfl
  exact ⟨((h.1 ⟨[("t1", fun _ => .error .deadlineExceeded)]⟩
      (fun _ => .error .deadlineExceeded) rfl).1 .deadlineExceeded rfl),
    h.2.2.2.2 200 (.vstr "ok") (by omega)⟩

/-! ## Declarative-config validation characterization -/

theorem validateParamList_ok_iff (ps : List ToolParameter) (i : Nat) :
    validateParamList ps i = .ok () ↔ ∀ p ∈ ps, p.Name ≠ "" ∧ p.Type' ≠ "" := by
  induction ps generalizing i with
  | nil => simp [validateParamList]
  | cons p rest ih =>
      by_cases h1 : p.Name = ""
      · simp [validateParamList, h1]
      · by_cases h2 : p.Type' = ""
        · simp [validateParamList, h1, h2]
        · simp [validateParamList, h1, h2, ih]

set_option maxHeartbeats 1000000 in
theorem validateToolConfig_ok_iff (c : ToolConfig) :
    validateToolConfig c = .ok () ↔
      c.ID ≠ "" ∧ c.Name ≠ "" ∧ c.Version ≠ "" ∧
      (∀ p ∈ c.Parameters, p.Name ≠ "" ∧ p.Type' ≠ "") ∧
      0 ≤ c.Timeout ∧ 0 ≤ c.RetryCount ∧ 0 ≤ c.RetryDelay ∧ 0 ≤ c.Concurrency ∧
      0 ≤ c.RateLimit ∧ 0 ≤ c.LogMaxSize ∧ 0 ≤ c.LogMaxFiles := by
  unfold validateToolConfig
  by_cases h1 : c.ID = ""
  · simp [h1]
  by_cases h2 : c.Name = ""
  · simp [h1, h2]
  by_cases h3 : c.Version = ""
  · simp [h1, h2, h3]
  rw [if_neg h1, if_neg h2, if_neg h3]
  cases hp : validateParamList c.Parameters 0 with
  | error e =>
      have hnp : ¬ ∀ p ∈ c.Parameters, p.Name ≠ "" ∧ p.Type' ≠ "" := by
        rw [← validateParamList_ok_iff c.Parameters 0, hp]
        simp
      simp [h1, h2, h3, hnp]
  | ok u =>
      cases u
      have hpp : ∀ p ∈ c.Parameters, p.Name ≠ "" ∧ p.Type' ≠ "" :=
        (validateParamList_ok_iff c.Parameters 0).mp hp
      constructor
      · intro h
        refine ⟨h1, h2, h3, hpp, ?_, ?_, ?_, ?_, ?_, ?_, ?_⟩ <;>
          (split_ifs at h <;> first | omega | simp at h)
      · rintro ⟨-, -, -, -, ht, hr, hd, hc, hl, hls, hlf⟩
        rw [if_neg (not_lt.mpr ht), if_neg (not_lt.mpr hr), if_neg (not_lt.mpr hd),
          if_neg (not_lt.mpr hc), if_neg (not_lt.mpr hl), if_neg (not_lt.mpr hls),
          if_neg (not_lt.mpr hlf)]

theorem validateToolList_ok_iff (ts : List ToolConfig) (i : Nat) :
    validateToolList ts i = .ok () ↔ ∀ t ∈ ts, validateToolConfig t = .ok () := by
  induction ts generalizing i with
  | nil => simp [validateToolList]
  | cons t rest ih =>
      cases hv : validateToolConfig t with
      | error e => simp [validateToolList, hv]
      | ok u => cases u; simp [validateToolList, hv, ih]

set_option maxHeartbeats 1000000 in
theorem validateServerConfig_ok_iff (c : ServerConfig) :
    validateServerConfig c = .ok () ↔
      c.ID ≠ "" ∧ c.Name ≠ "" ∧ c.Version ≠ "" ∧ c.Type' ≠ "" ∧
      (∀ t ∈ c.Tools, validateToolConfig t = .ok ()) ∧
      0 ≤ c.Port ∧ c.Port ≤ 65535 ∧
      (c.SSLEnabled = true → c.SSLCertFile ≠ "" ∧ c.SSLKeyFile ≠ "") ∧
      0 ≤ c.ReadTimeout ∧ 0 ≤ c.WriteTimeout ∧ 0 ≤ c.IdleTimeout ∧
      0 ≤ c.ShutdownTimeout := by
  unfold validateServerConfig
  by_cases h1 : c.ID = ""
  · simp [h1]
  by_cases h2 : c.Name = ""
  · simp [h1, h2]
  by_cases h3 : c.Version = ""
  · simp [h1, h2, h3]
  by_cases h4 : c.Type' = ""
  · simp [h1, h2, h3, h4]
  rw [if_neg h1, if_neg h2, if_neg h3, if_neg h4]
  cases htl : validateToolList c.Tools 0 with
  | error e =>
      have hnt : ¬ ∀ t ∈ c.Tools, validateToolConfig t = .ok () := by
        rw [← validateToolList_ok_iff c.Tools 0, htl]
        simp
      simp [h1, h2, h3, h4, hnt]
  | ok u =>
      cases u
      have htt : ∀ t ∈ c.Tools, validateToolConfig t = .ok () :=
        (validateToolList_ok_iff c.Tools 0).mp htl
      constructor
      · intro h
        simp only [Bool.or_eq_true, Bool.and_eq_true, decide_eq_true_iff] at h
        refine ⟨h1, h2, h3, h4, htt, ?_, ?_, ?_, ?_, ?_, ?_, ?_⟩ <;>
          (split_ifs at h <;> first | omega | tauto | simp at h)
      · rintro ⟨-, -, -, -, -, hp1, hp2, hssl, hrt, hwt, hit, hst⟩
        simp only [Bool.or_eq_true, Bool.and_eq_true, decide_eq_true_iff]
        rw [if_neg (by omega : ¬(c.Port < 0 ∨ c.Port > 65535)),
          if_neg (fun hc => (hssl hc.1).1 hc.2),
          if_neg (fun hk => (hssl hk.1).2 hk.2),
          if_neg (not_lt.mpr hrt), if_neg (not_lt.mpr hwt),
          if_neg (not_lt.mpr hit), if_neg (not_lt.mpr hst)]

/-- C9 counterexample: a server config with ID, Name and Version present, no
parameters, all numeric knobs zero (non-negative), SSL disabled and the port
in range violates none of the claim's listed rejection rules — yet
`LoadServerConfig` rejects it, because its `Type` field is empty. -/
def missingTypeServerConfig : ServerConfig :=
  { ID := "s1", Name := "srv", Version := "1.0" }

theorem serverConfig_missing_type_cex :
    missingTypeServerConfig.ID ≠ "" ∧ missingTypeServerConfig.Name ≠ ""
    ∧ missingTypeServerConfig.Version ≠ "" ∧ missingTypeServerConfig.Tools = []
    ∧ 0 ≤ missingTypeServerConfig.Port ∧ missingTypeServerConfig.Port ≤ 65535
    ∧ missingTypeServerConfig.SSLEnabled = false
    ∧ 0 ≤ missingTypeServerConfig.ReadTimeout
    ∧ 0 ≤ missingTypeServerConfig.WriteTimeout
    ∧ 0 ≤ missingTypeServerConfig.IdleTimeout
    ∧ 0 ≤ missingTypeServerConfig.ShutdownTimeout
    ∧ LoadServerConfig (.ok missingTypeServerConfig) =
        .error "invalid server config: server type is required" := by
  refine ⟨?_, ?_, ?_, ?_, ?_, ?_, ?_, ?_, ?_, ?_, ?_, ?_⟩ <;> first | decide | rfl

/-- C9 (amended: the rejection list additionally contains a server config
whose `Type` field is empty). A parsed tool/server config object is accepted
by `LoadToolConfig` / `LoadServerConfig` exactly when its ID, Name and
Version (and, for servers, Type) are present, every declared parameter has a
name and a type, every timeout/retry/concurrency/rate-limit/log-size knob is
non-negative, the port is in range, and an SSL-enabled server names both
cert and key files; otherwise, and on a failed read/parse, the loader
returns an error and loads nothing. -/
theorem configLoad_validation (tc : ToolConfig) (sc : ServerConfig) :
    (LoadToolConfig (.ok tc) = .ok tc ↔
      tc.ID ≠ "" ∧ tc.Name ≠ "" ∧ tc.Version ≠ "" ∧
      (∀ p ∈ tc.Parameters, p.Name ≠ "" ∧ p.Type' ≠ "") ∧
      0 ≤ tc.Timeout ∧ 0 ≤ tc.RetryCount ∧ 0 ≤ tc.RetryDelay ∧
      0 ≤ tc.Concurrency ∧ 0 ≤ tc.RateLimit ∧ 0 ≤ tc.LogMaxSize ∧
      0 ≤ tc.LogMaxFiles)
    ∧ (LoadServerConfig (.ok sc) = .ok sc ↔
      sc.ID ≠ "" ∧ sc.Name ≠ "" ∧ sc.Version ≠ "" ∧ sc.Type' ≠ "" ∧
      (∀ t ∈ sc.Tools, validateToolConfig t = .ok ()) ∧
      0 ≤ sc.Port ∧ sc.Port ≤ 65535 ∧
      (sc.SSLEnabled = true → sc.SSLCertFile ≠ "" ∧ sc.SSLKeyFile ≠ "") ∧
      0 ≤ sc.ReadTimeout ∧ 0 ≤ sc.WriteTimeout ∧ 0 ≤ sc.IdleTimeout ∧
      0 ≤ sc.ShutdownTimeout)
    ∧ (validateToolConfig tc ≠ .ok () →
        ∃ e, LoadToolConfig (.ok tc) = .error ("invalid tool config: " ++ e))
    ∧ (validateServerConfig sc ≠ .ok () →
        ∃ e, LoadServerConfig (.ok sc) = .error ("invalid server config: " ++ e))
    ∧ (∀ e, LoadToolConfig (.error e) = .error e)
    ∧ (∀ e, LoadServerConfig (.error e) = .error e) := by
  refine ⟨?_, ?_, ?_, ?_, fun e => rfl, fun e => rfl⟩
  · rw [← validateToolConfig_ok_iff]
    cases hv : validateToolConfig tc with
    | error e => simp [LoadToolConfig, hv]
    | ok u => cases u; simp [LoadToolConfig, hv]
  · rw [← validateServerConfig_ok_iff]
    cases hv : validateServerConfig sc with
    | error e => simp [LoadServerConfig, hv]
    | ok u => cases u; simp [LoadServerConfig, hv]
  · intro hne
    cases hv : validateToolConfig tc with
    | error e => exact ⟨e, by simp [LoadToolConfig, hv]⟩
    | ok u => cases u; exact absurd hv hne
  · intro hne
    cases hv : validateServerConfig sc with
    | error e => exact ⟨e, by simp [LoadServerConfig, hv]⟩
    | ok u => cases u; exact absurd hv hne

/-! ## Registry snapshot round trip -/

theorem decodeObjWith_str_encode (md : List (String × String)) :
    decodeObjWith (fun v => decodeStr (some v))
      (md.map (fun kv => (kv.1, GoVal.vstr kv.2))) = some md := by
  induction md with
  | nil => rfl
  | cons kv rest ih =>
      rw [List.map_cons]
      unfold decodeObjWith
      rw [ih]
      rfl

theorem decodeMetadata_encode (md : List (String × String)) :
    decodeMetadata (some (encodeMetadata md)) = some md := by
  simp [encodeMetadata, decodeMetadata, decodeObjWith_str_encode]

theorem decodeToolParameter_encode (p : ToolParameter) :
    decodeToolParameter (encodeToolParameter p) = some p := by
  obtain ⟨n, ty, d, r, df⟩ := p
  cases df <;> rfl

theorem decodeList_encodeToolParameter (ps : List ToolParameter) :
    decodeList decodeToolParameter (ps.map encodeToolParameter) = some ps := by
  induction ps with
  | nil => rfl
  | cons p rest ih =>
      rw [List.map_cons]
      unfold decodeList
      rw [decodeToolParameter_encode, ih]

theorem decodeParameters_encode (ps : List ToolParameter) :
    decodeParameters (some (.varr (ps.map encodeToolParameter))) = some ps := by
  simp [decodeParameters, decodeList_encodeToolParameter]

theorem decodeTool_encode (t : Tool) :
    decodeTool (encodeTool t) = some t := by
  obtain ⟨i, n, d, v, a, ps, sid, ca, ua, md⟩ := t
  simp [encodeTool, decodeTool, lookupKey, decodeStr, decodeInt,
    decodeParameters_encode, decodeMetadata_encode]

theorem decodeList_encodeTool (ts : List Tool) :
    decodeList decodeTool (ts.map encodeTool) = some ts := by
  induction ts with
  | nil => rfl
  | cons t rest ih =>
      rw [List.map_cons]
      unfold decodeList
      rw [decodeTool_encode, ih]

theorem decodeToolList_encode (ts : List Tool) :
    decodeToolList (some (.varr (ts.map encodeTool))) = some ts := by
  simp [decodeToolList, decodeList_encodeTool]

theorem decodeServer_encode (s : Server) :
    decodeServer (encodeServer s) = some s := by
  obtain ⟨i, n, d, v, u, ty, st, ts, ca, ua, md⟩ := s
  simp [encodeServer, decodeServer, lookupKey, decodeStr, decodeInt,
    decodeToolList_encode, decodeMetadata_encode]

theorem decodeObjWith_encodeServer (servers : List (String × Server)) :
    decodeObjWith decodeServer
      (servers.map (fun kv => (kv.1, encodeServer kv.2))) = some servers := by
  induction servers with
  | nil => rfl
  | cons kv rest ih =>
      rw [List.map_cons]
      unfold decodeObjWith
      rw [decodeServer_encode, ih]

theorem decodeServersMap_encode (servers : List (String × Server)) :
    decodeServersMap
        (some (.vobj (servers.map (fun kv => (kv.1, encodeServer kv.2))))) =
      some servers := by
  simp [decodeServersMap, decodeObjWith_encodeServer]

theorem decodeObjWith_encodeTool (tools : List (String × Tool)) :
    decodeObjWith decodeTool
      (tools.map (fun kv => (kv.1, encodeTool kv.2))) = some tools := by
  induction tools with
  | nil => rfl
  | cons kv rest ih =>
      rw [List.map_cons]
      unfold decodeObjWith
      rw [decodeTool_encode, ih]

theorem decodeToolsMap_encode (tools : List (String × Tool)) :
    decodeToolsMap
        (some (.vobj (tools.map (fun kv => (kv.1, encodeTool kv.2))))) =
      some tools := by
  simp [decodeToolsMap, decodeObjWith_encodeTool]

theorem loadConfig_saveConfigData (m : Manager) :
    m.loadConfig (.data (.ok m.saveConfigData)) = .ok m := by
  simp [Manager.loadConfig, Manager.saveConfigData, decodeConfig, lookupKey,
    decodeServersMap_encode, decodeToolsMap_encode, decodeBoolField, decodeInt]

/-- C6. Saving the registry snapshot and loading the saved document back
reproduces the saving Manager's server-ID set, tool-ID set, auto-approve
flag and timeout (in fact the loaded manager equals the saved one). -/
theorem config_roundtrip (m : Manager) :
    ∃ m', m.loadConfig (.data (.ok m.saveConfigData)) = .ok m'
      ∧ m'.servers.map Prod.fst = m.servers.map Prod.fst
      ∧ m'.tools.map Prod.fst = m.tools.map Prod.fst
      ∧ m'.autoApprove = m.autoApprove
      ∧ m'.timeout = m.timeout :=
  ⟨m, loadConfig_saveConfigData m, rfl, rfl, rfl, rfl⟩

end Mcp
